import Mathlib

/-!
Shallow embedding of octoci's src/main.go (the octoci build command).

Bytes are modelled as natural numbers, byte streams as lists of
naturals.  The external SHA-256 digester is represented by the exact
byte stream fed to it (its preimage): two digests are equal exactly when
the byte streams fed to the two digesters are equal, which is the
property this development reasons about.  External collaborators — the
pgzip compressor, the OCI blob store (casext.Engine), the tar header
serializer — are parameters of the relevant functions.  float64
arithmetic in the split heuristic is modelled over the rationals.
-/

namespace Octoci

/-- Errors a build task or the build can return.  The constructor
threadPoolCancelled is the pool's sentinel; the other constructors stand
for error values the source produces itself or receives from external
collaborators (src/main.go lines 159, 169, 179 and the store calls). -/
inductive BuildErr where
  | threadPoolCancelled
  | ioError (msg : String)
  | badTag
  | badManifestType
  | badConfigType
  deriving DecidableEq, Repr

/-- Modelled from the spec: the value pool.ThreadPoolCancelled of the
pool package, whose source is not under src/.  Per the spec it is "a
dedicated pool cancelled error", a distinguished sentinel value the pool
never reports as the triggering failure; here it is a dedicated
constructor of BuildErr. -/
def ThreadPoolCancelled : BuildErr := BuildErr.threadPoolCancelled

/-- Mirrors ispec.Descriptor as used by src/main.go: media type, digest
of the referenced blob, and its size in bytes. -/
structure Descriptor where
  mediaType : String
  digest : String
  size : Int
  deriving DecidableEq, Repr

/-- Media type constant ispec.MediaTypeImageLayerGzip (line 391). -/
def MediaTypeImageLayerGzip : String := "application/vnd.oci.image.layer.v1.tar+gzip"

/-- Media type constant ispec.MediaTypeImageConfig (line 193). -/
def MediaTypeImageConfig : String := "application/vnd.oci.image.config.v1+json"

/-- Media type constant ispec.MediaTypeImageManifest (line 204). -/
def MediaTypeImageManifest : String := "application/vnd.oci.image.manifest.v1+json"

/-- One filesystem entry seen by the filepath.Walk handler (lines
267-361).  isRoot marks the rootfs's own root path (skipped at line
280); size is the value of info.Size() used by the split heuristic;
bytes is the tar serialization of the entry as the archive/tar writer
emits it (header block, file content, and padding), abstracted since
archive/tar is an external collaborator. -/
structure Entry where
  isRoot : Bool
  size : Int
  bytes : List Nat
  deriving DecidableEq, Repr

/-- One tar+gzip segment (one eventual layer).  digIn is the byte
stream fed to the segment's SHA-256 digester diffID.Hash(); compIn is
the uncompressed byte stream fed to the segment's pgzip writer; closed
records that tw.Close/gzw.Close/writer.Close have run for it.  The tar
writer at line 263 (and 326) writes through an io.MultiWriter feeding
the uncompressed counter, the compressor and the digester, so digIn and
compIn are updated at the same sites the MultiWriter fans out to. -/
structure SegState where
  digIn : List Nat
  compIn : List Nat
  closed : Bool
  deriving DecidableEq, Repr

/-- State of the producer goroutine of addBlob (lines 239-373).
finalized lists the segments already closed and handed off, in creation
order; cur is the live segment; uncompressedWritten and
compressedWritten mirror uncompressedCounter.written and
compressedCounter.written; handoffs counts the sends on the channel ch
(lines 250 and 327). -/
structure ProdState where
  finalized : List SegState
  cur : SegState
  uncompressedWritten : Nat
  compressedWritten : Nat
  handoffs : Nat
  deriving DecidableEq, Repr

/-- Byte stream written by tar.Writer.Close: the end-of-archive marker
of two 512-byte zero blocks. -/
def tarTerminator : List Nat := List.replicate 1024 0

/-- One write through the tar writer's underlying io.MultiWriter
(line 263 / line 326): the uncompressed counter, the compressor and the
digester all receive the same bytes. -/
def writeTar (s : ProdState) (bs : List Nat) : ProdState :=
  { s with
    uncompressedWritten := s.uncompressedWritten + bs.length,
    cur := { s.cur with
             digIn := s.cur.digIn ++ bs,
             compIn := s.cur.compIn ++ bs } }

/-- The split body, lines 313-333: tw.Close() writes the archive
terminator through the old MultiWriter (so the old digester and old
compressor both receive it); gzw.Close() and writer.Close() finalize
the old stream; both counters are reset to zero; a fresh pipe, a fresh
pgzip writer, a fresh digester and a fresh tar writer are created; the
new segment's read side is sent on ch. -/
def splitStep (s : ProdState) : ProdState :=
  let s1 := writeTar s tarTerminator
  { finalized := s1.finalized ++ [{ s1.cur with closed := true }],
    cur := { digIn := [], compIn := [], closed := false },
    uncompressedWritten := 0,
    compressedWritten := 0,
    handoffs := s1.handoffs + 1 }

/-- The handler body past the cancellation and root checks, lines
283-358, for an entry that is actually archived.  gz is the compression
model: gz u is the value of compressedCounter.written once the
compressor that has been fed exactly the uncompressed stream u is
flushed.  When maxLayerSize > 0 and uncompressedCounter.written > 0,
the handler flushes gzw (line 307), computes the compression estimate
of line 310-311 in exact rational arithmetic, and splits when the
projected compressed size passes the threshold; then the entry's header
and content are written to the (possibly fresh) tar writer. -/
def processEntry (m : Nat) (gz : List Nat → Nat) (s : ProdState) (e : Entry) : ProdState :=
  let s1 :=
    if 0 < m ∧ 0 < s.uncompressedWritten then
      let flushed : ProdState := { s with compressedWritten := gz s.cur.compIn }
      if (flushed.compressedWritten : ℚ) +
           ((flushed.compressedWritten : ℚ) / (flushed.uncompressedWritten : ℚ)) *
             (1000 + (e.size : ℚ)) >
         (m : ℚ) - (m : ℚ) * (5 / 100) then
        splitStep flushed
      else
        flushed
    else s
  writeTar s1 e.bytes

/-- One invocation of the walk handler (lines 267-361): first the
select on ctx.Done() (lines 268-272), then the skip of the rootfs's own
root (lines 279-281), then the archiving body. -/
def handlerStep (m : Nat) (gz : List Nat → Nat) (cancelled : Bool) (s : ProdState)
    (e : Entry) : Except BuildErr ProdState :=
  if cancelled then Except.error ThreadPoolCancelled
  else if e.isRoot then Except.ok s
  else Except.ok (processEntry m gz s e)

/-- filepath.Walk over one rootfs (line 364): entries are visited in
order, the walk aborts at the handler's first error.  k indexes the
entries processed so far across the whole task, so that the
cancellation signal cAt can be sampled per handler invocation; the
returned index is the next unused one. -/
def runWalk (m : Nat) (gz : List Nat → Nat) (cAt : Nat → Bool) :
    Nat → ProdState → List Entry → ProdState × Nat × Option BuildErr
  | k, s, [] => (s, k, none)
  | k, s, e :: rest =>
    match handlerStep m gz (cAt k) s e with
    | Except.error er => (s, k + 1, some er)
    | Except.ok s' => runWalk m gz cAt (k + 1) s' rest

/-- The loop over rp.rootfses (lines 266-368): each rootfs is walked in
order; a failing walk calls writer.CloseWithError but the loop still
proceeds to the next rootfs, so the first error is recorded and the
remaining rootfses are still walked. -/
def walkRootfses (m : Nat) (gz : List Nat → Nat) (cAt : Nat → Bool) :
    Nat → ProdState → List (List Entry) → ProdState × Nat × Option BuildErr
  | k, s, [] => (s, k, none)
  | k, s, r :: rest =>
    let w := runWalk m gz cAt k s r
    let w' := walkRootfses m gz cAt w.2.1 w.1 rest
    (w'.1, w'.2.1,
      match w.2.2 with
      | some er => some er
      | none => w'.2.2)

/-- Producer state right after lines 239-263: empty first segment with
a fresh digester, both counters zero, and the first segment's handle
already sent on ch (line 250) before any filesystem entry is walked. -/
def initProdState : ProdState :=
  { finalized := [],
    cur := { digIn := [], compIn := [], closed := false },
    uncompressedWritten := 0,
    compressedWritten := 0,
    handoffs := 1 }

/-- The whole producer goroutine (lines 239-373): initial segment and
handoff, the walk over all rootfses, then the final tw.Close(),
gzw.Close(), writer.Close() of lines 370-372.  Returns every segment
ever created (in creation order, all closed ones first), the number of
channel sends, and the first walk error if any. -/
def runProducer (m : Nat) (gz : List Nat → Nat) (cAt : Nat → Bool)
    (rootfses : List (List Entry)) : List SegState × Nat × Option BuildErr :=
  let w := walkRootfses m gz cAt 0 initProdState rootfses
  let s := writeTar w.1 tarTerminator
  (s.finalized ++ [{ s.cur with closed := true }], s.handoffs, w.2.2)

/-- The consumer loop of addBlob (lines 375-396): for each segment
handle received from the channel, oci.PutBlob commits the compressed
stream; on error the loop returns immediately with the result lists as
already accumulated; on success one Descriptor (media type = gzip
layer, size, digest) and the finalized diff id are appended together.
putBlob models the external store call; the appended diff id is the
digester's finalized value, represented by its preimage seg.digIn. -/
def consumeSegments (putBlob : SegState → Except BuildErr (String × Int)) :
    List SegState → List (List Nat) × List Descriptor →
      (List (List Nat) × List Descriptor) × Option BuildErr
  | [], acc => (acc, none)
  | seg :: rest, acc =>
    match putBlob seg with
    | Except.error er => (acc, some er)
    | Except.ok ds =>
      consumeSegments putBlob rest
        (acc.1 ++ [seg.digIn],
         acc.2 ++ [{ mediaType := MediaTypeImageLayerGzip, digest := ds.1, size := ds.2 }])

/-- rootfsProcessor.addBlob (lines 233-399) for one task: the producer
runs the walk and hands segments to the consumer loop, which commits
them and accumulates rp.diffID and rp.layerDesc (initially nil). -/
def addBlob (m : Nat) (gz : List Nat → Nat) (cAt : Nat → Bool)
    (putBlob : SegState → Except BuildErr (String × Int))
    (rootfses : List (List Entry)) :
    (List (List Nat) × List Descriptor) × Option BuildErr :=
  consumeSegments putBlob (runProducer m gz cAt rootfses).1 ([], [])

/-- A Go runtime panic, as distinct from an error value returned by
doBuild. -/
inductive GoPanic where
  | integerDivideByZero
  deriving DecidableEq, Repr

/-- Go's remainder of a non-negative int by an arbitrary int: panics
when the divisor is zero; for a non-negative dividend the result equals
the remainder modulo the divisor's absolute value. -/
def goIntMod (i : Nat) (d : Int) : Except GoPanic Nat :=
  if d = 0 then Except.error GoPanic.integerDivideByZero
  else Except.ok (i % d.natAbs)

/-- tasks[len(tasks)-1].rootfses = append(..., rootfs) at line 138:
the rootfs is appended to the last group. -/
def appendToLast (tasks : List (List String)) (x : String) : List (List String) :=
  match tasks with
  | [] => []
  | [t] => [t ++ [x]]
  | t :: rest => t :: appendToLast rest x

/-- The grouping loop of doBuild, lines 126-139: on each index i with
i % dirsPerBlob == 0, a new empty group is opened; the rootfs is then
appended to the last group.  The modulo is Go's, so a zero dirsPerBlob
panics on the very first iteration. -/
def groupLoop (dirsPerBlob : Int) :
    Nat → List (List String) → List String → Except GoPanic (List (List String))
  | _, tasks, [] => Except.ok tasks
  | i, tasks, rootfs :: rest =>
    match goIntMod i dirsPerBlob with
    | Except.error p => Except.error p
    | Except.ok r =>
      let tasks' := if r = 0 then tasks ++ [[]] else tasks
      groupLoop dirsPerBlob (i + 1) (appendToLast tasks' rootfs) rest

/-- Grouping of the flat rootfs list into per-task groups, as performed
by doBuild lines 126-139 with the caller-supplied dirs-per-blob value
unguarded. -/
def groupRootfses (rootfses : List String) (dirsPerBlob : Int) :
    Except GoPanic (List (List String)) :=
  groupLoop dirsPerBlob 0 [] rootfses

/-- Result lists of one rootfsProcessor after its addBlob ran: the
fields rp.diffID and rp.layerDesc (lines 229-230), diff ids again
represented by their preimages. -/
structure TaskResult where
  diffID : List (List Nat)
  layerDesc : List Descriptor
  deriving DecidableEq, Repr

instance : Inhabited TaskResult := ⟨⟨[], []⟩⟩

/-- The assembly loop of doBuild, lines 182-185: for each task in
creation order, append its diff ids to config.RootFS.DiffIDs and its
layer descriptors to manifest.Layers. -/
def assembleResults (diffIDs0 : List (List Nat)) (layers0 : List Descriptor)
    (results : List TaskResult) : List (List Nat) × List Descriptor :=
  results.foldl (fun acc t => (acc.1 ++ t.diffID, acc.2 ++ t.layerDesc)) (diffIDs0, layers0)

/-- Modelled from the spec: pool.Run of the pool package, whose source
is not under src/.  Per the spec the pool executes every registered
task across its workers in an arbitrary completion order, and each task
writes its results only into its own exclusively owned task struct
(here: slot i of the slot list receives the result of task i whenever
task i completes).  order is the sequence in which tasks complete. -/
def poolRunInOrder {α : Type} (run : α → TaskResult) (tasks : List α)
    (order : List Nat) : List (Option TaskResult) :=
  order.foldl (fun slots i => slots.set i (tasks[i]?.map run))
    (List.replicate tasks.length none)

/-- Reading the task structs after the pool finished (the range over
tasks at line 182). -/
def slotResults (slots : List (Option TaskResult)) : List TaskResult :=
  slots.map (fun o => o.getD default)

/-- Calls doBuild makes on the OCI layout after the pool ran (lines
148-212), plus the deferred Close and GC of lines 116-117. -/
inductive OciOp where
  | resolveReference
  | fromDescriptor
  | putBlobJSON
  | updateReference
  | close
  | gc
  deriving DecidableEq, Repr

/-- The manifest fields doBuild uses: Config descriptor and Layers. -/
structure ManifestData where
  config : Descriptor
  layers : List Descriptor
  deriving DecidableEq, Repr

/-- The image config fields doBuild uses: RootFS.DiffIDs, again as
digest preimages. -/
structure ImageData where
  diffIDs : List (List Nat)
  deriving DecidableEq, Repr

/-- Data carried by a decoded blob, with the type assertion targets of
lines 167 and 177 as constructors and anything else as other. -/
inductive BlobData where
  | manifest (man : ManifestData)
  | image (cfg : ImageData)
  | other
  deriving DecidableEq, Repr

/-- doBuild from line 148 (err = tp.Run()) to line 212, without the
deferred calls: on a pool error, return it at once (lines 149-151);
otherwise resolve the tag, decode manifest and config with their type
assertions, append every task's results in task order, write the new
config and manifest blobs, and update the reference.  The externally
supplied oracle arguments stand for the store's responses; the second
component is the trace of store operations performed, in order. -/
def doBuildTailCore (poolResult : Option BuildErr)
    (resolveRes : Except BuildErr (List Descriptor))
    (fromDesc : Descriptor → Except BuildErr BlobData)
    (putJSON : BlobData → Except BuildErr (String × Int))
    (updateRef : Descriptor → Option BuildErr)
    (tasks : List TaskResult) : Option BuildErr × List OciOp :=
  match poolResult with
  | some er => (some er, [])
  | none =>
    match resolveRes with
    | Except.error er => (some er, [OciOp.resolveReference])
    | Except.ok descriptorPaths =>
      match descriptorPaths with
      | [d] =>
        match fromDesc d with
        | Except.error er => (some er, [OciOp.resolveReference, OciOp.fromDescriptor])
        | Except.ok (BlobData.manifest man) =>
          match fromDesc man.config with
          | Except.error er =>
            (some er, [OciOp.resolveReference, OciOp.fromDescriptor, OciOp.fromDescriptor])
          | Except.ok (BlobData.image cfg) =>
            let assembled := assembleResults cfg.diffIDs man.layers tasks
            match putJSON (BlobData.image { diffIDs := assembled.1 }) with
            | Except.error er =>
              (some er, [OciOp.resolveReference, OciOp.fromDescriptor, OciOp.fromDescriptor,
                         OciOp.putBlobJSON])
            | Except.ok ds =>
              let newConfigDesc : Descriptor :=
                { mediaType := MediaTypeImageConfig, digest := ds.1, size := ds.2 }
              match putJSON (BlobData.manifest { config := newConfigDesc,
                                                 layers := assembled.2 }) with
              | Except.error er =>
                (some er, [OciOp.resolveReference, OciOp.fromDescriptor, OciOp.fromDescriptor,
                           OciOp.putBlobJSON, OciOp.putBlobJSON])
              | Except.ok ds' =>
                let newManifestDesc : Descriptor :=
                  { mediaType := MediaTypeImageManifest, digest := ds'.1, size := ds'.2 }
                (updateRef newManifestDesc,
                 [OciOp.resolveReference, OciOp.fromDescriptor, OciOp.fromDescriptor,
                  OciOp.putBlobJSON, OciOp.putBlobJSON, OciOp.updateReference])
          | Except.ok _ =>
            (some BuildErr.badConfigType,
             [OciOp.resolveReference, OciOp.fromDescriptor, OciOp.fromDescriptor])
        | Except.ok _ =>
          (some BuildErr.badManifestType, [OciOp.resolveReference, OciOp.fromDescriptor])
      | _ => (some BuildErr.badTag, [OciOp.resolveReference])

/-- doBuildTailCore together with the deferred oci.Close and oci.GC of
lines 116-117, which run in that order on every return path. -/
def doBuildTail (poolResult : Option BuildErr)
    (resolveRes : Except BuildErr (List Descriptor))
    (fromDesc : Descriptor → Except BuildErr BlobData)
    (putJSON : BlobData → Except BuildErr (String × Int))
    (updateRef : Descriptor → Option BuildErr)
    (tasks : List TaskResult) : Option BuildErr × List OciOp :=
  let r := doBuildTailCore poolResult resolveRes fromDesc putJSON updateRef tasks
  (r.1, r.2 ++ [OciOp.close, OciOp.gc])

/-- Spec-side reading of the split criterion: the projected compressed
size — compressed bytes so far plus the compression estimate of the
entry's declared size with a 1000-byte overhead allowance — exceeds 95
percent of the layer size budget. -/
def projectedExceedsBudget (maxSize c u : Nat) (size : Int) : Prop :=
  (c : ℚ) + ((c : ℚ) / (u : ℚ)) * ((size : ℚ) + 1000) > (95 / 100 : ℚ) * (maxSize : ℚ)

instance (maxSize c u : Nat) (size : Int) : Decidable (projectedExceedsBudget maxSize c u size) := by
  unfold projectedExceedsBudget
  infer_instance

/-- Digest-scoping invariant of a producer state: the byte stream fed to
every digester equals the uncompressed byte stream fed to the matching
compressor, for the live segment and every finalized one. -/
def segsOK (s : ProdState) : Prop :=
  s.cur.digIn = s.cur.compIn ∧ ∀ seg ∈ s.finalized, seg.digIn = seg.compIn

/-- Concrete producer state used to exercise the split heuristic: one
byte already written to the current segment. -/
def sampleSplitState : ProdState :=
  { finalized := [],
    cur := { digIn := [0], compIn := [0], closed := false },
    uncompressedWritten := 1,
    compressedWritten := 0,
    handoffs := 1 }

/-- Concrete non-root entry of declared size 0 with a one-byte tar
serialization. -/
def sampleEntry : Entry := { isRoot := false, size := 0, bytes := [5] }

/-- Concrete compression model: the compressor emits exactly as many
bytes as it was fed. -/
def sampleGz : List Nat → Nat := fun l => l.length

theorem writeTar_finalized (s : ProdState) (bs : List Nat) :
    (writeTar s bs).finalized = s.finalized := rfl

theorem writeTar_handoffs (s : ProdState) (bs : List Nat) :
    (writeTar s bs).handoffs = s.handoffs := rfl

theorem segsOK_writeTar (s : ProdState) (bs : List Nat) (h : segsOK s) :
    segsOK (writeTar s bs) := by
  obtain ⟨h1, h2⟩ := h
  refine ⟨?_, ?_⟩
  · simp [writeTar, h1]
  · simpa [writeTar] using h2

theorem segsOK_splitStep (s : ProdState) (h : segsOK s) : segsOK (splitStep s) := by
  obtain ⟨h1, h2⟩ := h
  refine ⟨rfl, ?_⟩
  intro seg hseg
  simp only [splitStep, writeTar] at hseg
  rcases List.mem_append.mp hseg with hmem | hmem
  · exact h2 seg hmem
  · rcases List.mem_singleton.mp hmem with rfl
    simp [h1]

theorem processEntry_cases (m : Nat) (gz : List Nat → Nat) (s : ProdState) (e : Entry) :
    processEntry m gz s e = writeTar s e.bytes ∨
    processEntry m gz s e =
      writeTar { s with compressedWritten := gz s.cur.compIn } e.bytes ∨
    processEntry m gz s e =
      writeTar (splitStep { s with compressedWritten := gz s.cur.compIn }) e.bytes := by
  unfold processEntry
  split
  · dsimp only
    split
    · right; right; rfl
    · right; left; rfl
  · left; rfl

theorem processEntry_zero (gz : List Nat → Nat) (s : ProdState) (e : Entry) :
    processEntry 0 gz s e = writeTar s e.bytes := by
  unfold processEntry
  simp

theorem segsOK_processEntry (m : Nat) (gz : List Nat → Nat) (s : ProdState) (e : Entry)
    (h : segsOK s) : segsOK (processEntry m gz s e) := by
  rcases processEntry_cases m gz s e with he | he | he <;> rw [he]
  · exact segsOK_writeTar _ _ h
  · exact segsOK_writeTar _ _ h
  · exact segsOK_writeTar _ _ (segsOK_splitStep _ h)

theorem segsOK_handlerStep (m : Nat) (gz : List Nat → Nat) (c : Bool) (s : ProdState)
    (e : Entry) (s' : ProdState) (h : segsOK s)
    (hok : handlerStep m gz c s e = Except.ok s') : segsOK s' := by
  unfold handlerStep at hok
  split at hok
  · cases hok
  · split at hok
    · cases hok
      exact h
    · cases hok
      exact segsOK_processEntry m gz s e h

theorem segsOK_runWalk (m : Nat) (gz : List Nat → Nat) (cAt : Nat → Bool) (k : Nat)
    (s : ProdState) (es : List Entry) (h : segsOK s) :
    segsOK (runWalk m gz cAt k s es).1 := by
  induction es generalizing k s with
  | nil => simpa [runWalk]
  | cons e rest ih =>
    simp only [runWalk]
    cases hh : handlerStep m gz (cAt k) s e with
    | error er => simpa using h
    | ok s' => exact ih (k + 1) s' (segsOK_handlerStep m gz (cAt k) s e s' h hh)

theorem segsOK_walkRootfses (m : Nat) (gz : List Nat → Nat) (cAt : Nat → Bool) (k : Nat)
    (s : ProdState) (rs : List (List Entry)) (h : segsOK s) :
    segsOK (walkRootfses m gz cAt k s rs).1 := by
  induction rs generalizing k s with
  | nil => simpa [walkRootfses]
  | cons r rest ih =>
    simp only [walkRootfses]
    exact ih _ _ (segsOK_runWalk m gz cAt k s r h)

/-- Claim C1: for every layer segment the producer ever creates, the
byte stream fed to that segment's SHA-256 digester is exactly the
uncompressed tar byte stream fed to that segment's compressor — every
write goes to both simultaneously, and splits start a fresh digester —
so the finalized diff id is the digest of exactly the bytes that were
compressed into that segment and of no bytes of any other segment. -/
theorem diffID_is_digest_of_exact_segment_bytes (m : Nat) (gz : List Nat → Nat)
    (cAt : Nat → Bool) (rootfses : List (List Entry)) (seg : SegState)
    (hseg : seg ∈ (runProducer m gz cAt rootfses).1) : seg.digIn = seg.compIn := by
  have hw : segsOK (walkRootfses m gz cAt 0 initProdState rootfses).1 :=
    segsOK_walkRootfses m gz cAt 0 initProdState rootfses ⟨rfl, by simp [initProdState]⟩
  have hfin : segsOK (writeTar (walkRootfses m gz cAt 0 initProdState rootfses).1 tarTerminator) :=
    segsOK_writeTar _ _ hw
  unfold runProducer at hseg
  rcases List.mem_append.mp hseg with hmem | hmem
  · exact hfin.2 seg hmem
  · rcases List.mem_singleton.mp hmem with rfl
    simpa using hfin.1

set_option maxRecDepth 8000 in
theorem diffID_is_digest_of_exact_segment_bytes_witness :
    (⟨tarTerminator, tarTerminator, true⟩ : SegState).digIn =
      (⟨tarTerminator, tarTerminator, true⟩ : SegState).compIn :=
  diffID_is_digest_of_exact_segment_bytes 0 (fun _ => 0) (fun _ => false) []
    ⟨tarTerminator, tarTerminator, true⟩
    ((show (runProducer 0 (fun _ => 0) (fun _ => false) []).1 =
        [⟨tarTerminator, tarTerminator, true⟩] from rfl).symm ▸
      List.mem_singleton_self _)

theorem handoffs_runWalk_zero (gz : List Nat → Nat) (cAt : Nat → Bool) (k : Nat)
    (s : ProdState) (es : List Entry) :
    (runWalk 0 gz cAt k s es).1.finalized = s.finalized ∧
      (runWalk 0 gz cAt k s es).1.handoffs = s.handoffs := by
  induction es generalizing k s with
  | nil => simp [runWalk]
  | cons e rest ih =>
    simp only [runWalk]
    cases hh : handlerStep 0 gz (cAt k) s e with
    | error er => exact ⟨rfl, rfl⟩
    | ok s' =>
      have hs' : s'.finalized = s.finalized ∧ s'.handoffs = s.handoffs := by
        unfold handlerStep at hh
        split at hh
        · cases hh
        · split at hh
          · cases hh
            exact ⟨rfl, rfl⟩
          · cases hh
            rw [processEntry_zero]
            exact ⟨rfl, rfl⟩
      obtain ⟨ihf, ihh⟩ := ih (k + 1) s'
      exact ⟨ihf.trans hs'.1, ihh.trans hs'.2⟩

theorem handoffs_walkRootfses_zero (gz : List Nat → Nat) (cAt : Nat → Bool) (k : Nat)
    (s : ProdState) (rs : List (List Entry)) :
    (walkRootfses 0 gz cAt k s rs).1.finalized = s.finalized ∧
      (walkRootfses 0 gz cAt k s rs).1.handoffs = s.handoffs := by
  induction rs generalizing k s with
  | nil => simp [walkRootfses]
  | cons r rest ih =>
    simp only [walkRootfses]
    obtain ⟨hf, hh⟩ := handoffs_runWalk_zero gz cAt k s r
    obtain ⟨ihf, ihh⟩ := ih (runWalk 0 gz cAt k s r).2.1 (runWalk 0 gz cAt k s r).1
    exact ⟨ihf.trans hf, ihh.trans hh⟩

/-- Claim C4: with maxSize = 0 the split heuristic never fires, so the
producer creates exactly one segment and sends exactly one segment
handle on the handoff channel, regardless of the entries walked. -/
theorem unbounded_budget_single_segment (gz : List Nat → Nat) (cAt : Nat → Bool)
    (rootfses : List (List Entry)) :
    (runProducer 0 gz cAt rootfses).1.length = 1 ∧
      (runProducer 0 gz cAt rootfses).2.1 = 1 := by
  obtain ⟨hf, hh⟩ := handoffs_walkRootfses_zero gz cAt 0 initProdState rootfses
  constructor
  · simp only [runProducer, writeTar_finalized]
    rw [hf]
    simp [initProdState]
  · simp only [runProducer, writeTar_handoffs]
    rw [hh]
    simp [initProdState]

theorem codeCond_iff_projected (m c u : Nat) (sz : Int) :
    ((c : ℚ) + ((c : ℚ) / (u : ℚ)) * (1000 + (sz : ℚ)) > (m : ℚ) - (m : ℚ) * (5 / 100)) ↔
      projectedExceedsBudget m c u sz := by
  unfold projectedExceedsBudget
  have e1 : (c : ℚ) + ((c : ℚ) / (u : ℚ)) * (1000 + (sz : ℚ)) =
      (c : ℚ) + ((c : ℚ) / (u : ℚ)) * ((sz : ℚ) + 1000) := by ring
  have e2 : (m : ℚ) - (m : ℚ) * (5 / 100) = (95 / 100 : ℚ) * (m : ℚ) := by ring
  rw [e1, e2]

theorem processEntry_guard_split (m : Nat) (gz : List Nat → Nat) (s : ProdState) (e : Entry)
    (hg : 0 < m ∧ 0 < s.uncompressedWritten)
    (hc : (gz s.cur.compIn : ℚ) +
        ((gz s.cur.compIn : ℚ) / (s.uncompressedWritten : ℚ)) * (1000 + (e.size : ℚ)) >
        (m : ℚ) - (m : ℚ) * (5 / 100)) :
    processEntry m gz s e =
      writeTar (splitStep { s with compressedWritten := gz s.cur.compIn }) e.bytes := by
  unfold processEntry
  rw [if_pos hg]
  dsimp only
  rw [if_pos hc]

theorem processEntry_guard_noSplit (m : Nat) (gz : List Nat → Nat) (s : ProdState) (e : Entry)
    (hg : 0 < m ∧ 0 < s.uncompressedWritten)
    (hc : ¬ ((gz s.cur.compIn : ℚ) +
        ((gz s.cur.compIn : ℚ) / (s.uncompressedWritten : ℚ)) * (1000 + (e.size : ℚ)) >
        (m : ℚ) - (m : ℚ) * (5 / 100))) :
    processEntry m gz s e =
      writeTar { s with compressedWritten := gz s.cur.compIn } e.bytes := by
  unfold processEntry
  rw [if_pos hg]
  dsimp only
  rw [if_neg hc]

/-- Claim C2: when maxSize is positive and at least one byte has been
written to the current segment, the handler flushes the compressor and
splits exactly when compressed bytes so far plus (compression ratio)
times (declared entry size + 1000) exceeds 95 percent of maxSize
(starting a new segment means: one more finalized segment and one more
channel handoff); and the very first entry of a segment is written with
no size check at all. -/
theorem split_heuristic_decision (m : Nat) (gz : List Nat → Nat) (s : ProdState) (e : Entry) :
    (0 < m → 0 < s.uncompressedWritten →
      (((processEntry m gz s e).finalized.length = s.finalized.length + 1 ∧
        (processEntry m gz s e).handoffs = s.handoffs + 1) ↔
       projectedExceedsBudget m (gz s.cur.compIn) s.uncompressedWritten e.size))
    ∧ (s.uncompressedWritten = 0 → processEntry m gz s e = writeTar s e.bytes) := by
  constructor
  · intro hm hu
    by_cases hp : projectedExceedsBudget m (gz s.cur.compIn) s.uncompressedWritten e.size
    · have hcode := (codeCond_iff_projected m (gz s.cur.compIn) s.uncompressedWritten e.size).mpr hp
      rw [processEntry_guard_split m gz s e ⟨hm, hu⟩ hcode]
      refine ⟨fun _ => hp, fun _ => ⟨?_, ?_⟩⟩
      · simp [writeTar, splitStep]
      · simp [writeTar, splitStep]
    · have hcode := fun h =>
        hp ((codeCond_iff_projected m (gz s.cur.compIn) s.uncompressedWritten e.size).mp h)
      rw [processEntry_guard_noSplit m gz s e ⟨hm, hu⟩ hcode]
      constructor
      · intro hlen
        exfalso
        have := hlen.1
        simp [writeTar] at this
      · intro h
        exact absurd h hp
  · intro hu
    unfold processEntry
    rw [if_neg (by simp [hu])]

theorem split_heuristic_decision_witness :
    (((processEntry 1 sampleGz sampleSplitState sampleEntry).finalized.length =
        sampleSplitState.finalized.length + 1 ∧
      (processEntry 1 sampleGz sampleSplitState sampleEntry).handoffs =
        sampleSplitState.handoffs + 1) ↔
     projectedExceedsBudget 1 (sampleGz sampleSplitState.cur.compIn)
       sampleSplitState.uncompressedWritten sampleEntry.size)
    ∧ processEntry 1 sampleGz initProdState sampleEntry = writeTar initProdState sampleEntry.bytes :=
  ⟨(split_heuristic_decision 1 sampleGz sampleSplitState sampleEntry).1
      (by decide) (by decide),
   (split_heuristic_decision 1 sampleGz initProdState sampleEntry).2 rfl⟩

/-- Claim C3: when the split decision fires, the current segment is
finalized first — the archive terminator is written through the old
MultiWriter (reaching the old digester and compressor), the old segment
is closed, both counters are reset to zero, a fresh empty segment with
a fresh digester is created and its handle is sent on the channel —
and only then is the pending entry written, into the new segment and
never into the finalized one. -/
theorem split_finalizes_before_pending_entry (m : Nat) (gz : List Nat → Nat)
    (s : ProdState) (e : Entry) (hm : 0 < m) (hu : 0 < s.uncompressedWritten)
    (hs : projectedExceedsBudget m (gz s.cur.compIn) s.uncompressedWritten e.size) :
    processEntry m gz s e =
      writeTar (splitStep { s with compressedWritten := gz s.cur.compIn }) e.bytes
    ∧ (splitStep { s with compressedWritten := gz s.cur.compIn }).finalized =
        s.finalized ++ [{ digIn := s.cur.digIn ++ tarTerminator,
                          compIn := s.cur.compIn ++ tarTerminator, closed := true }]
    ∧ (splitStep { s with compressedWritten := gz s.cur.compIn }).uncompressedWritten = 0
    ∧ (splitStep { s with compressedWritten := gz s.cur.compIn }).compressedWritten = 0
    ∧ (splitStep { s with compressedWritten := gz s.cur.compIn }).cur =
        { digIn := [], compIn := [], closed := false }
    ∧ (splitStep { s with compressedWritten := gz s.cur.compIn }).handoffs = s.handoffs + 1
    ∧ (processEntry m gz s e).cur.digIn = e.bytes
    ∧ (processEntry m gz s e).finalized =
        (splitStep { s with compressedWritten := gz s.cur.compIn }).finalized := by
  have hcode := (codeCond_iff_projected m (gz s.cur.compIn) s.uncompressedWritten e.size).mpr hs
  have hpe := processEntry_guard_split m gz s e ⟨hm, hu⟩ hcode
  refine ⟨hpe, ?_, rfl, rfl, rfl, rfl, ?_, ?_⟩
  · simp [splitStep, writeTar]
  · rw [hpe]
    simp [writeTar, splitStep]
  · rw [hpe]
    rfl

theorem split_finalizes_before_pending_entry_witness :
    processEntry 1 sampleGz sampleSplitState sampleEntry =
      writeTar (splitStep { sampleSplitState with
        compressedWritten := sampleGz sampleSplitState.cur.compIn }) sampleEntry.bytes
    ∧ (splitStep { sampleSplitState with
          compressedWritten := sampleGz sampleSplitState.cur.compIn }).finalized =
        sampleSplitState.finalized ++
          [{ digIn := sampleSplitState.cur.digIn ++ tarTerminator,
             compIn := sampleSplitState.cur.compIn ++ tarTerminator, closed := true }]
    ∧ (splitStep { sampleSplitState with
          compressedWritten := sampleGz sampleSplitState.cur.compIn }).uncompressedWritten = 0
    ∧ (splitStep { sampleSplitState with
          compressedWritten := sampleGz sampleSplitState.cur.compIn }).compressedWritten = 0
    ∧ (splitStep { sampleSplitState with
          compressedWritten := sampleGz sampleSplitState.cur.compIn }).cur =
        { digIn := [], compIn := [], closed := false }
    ∧ (splitStep { sampleSplitState with
          compressedWritten := sampleGz sampleSplitState.cur.compIn }).handoffs =
        sampleSplitState.handoffs + 1
    ∧ (processEntry 1 sampleGz sampleSplitState sampleEntry).cur.digIn = sampleEntry.bytes
    ∧ (processEntry 1 sampleGz sampleSplitState sampleEntry).finalized =
        (splitStep { sampleSplitState with
          compressedWritten := sampleGz sampleSplitState.cur.compIn }).finalized :=
  split_finalizes_before_pending_entry 1 sampleGz sampleSplitState sampleEntry
    (by decide) (by decide)
    (by norm_num [sampleGz, sampleSplitState, sampleEntry, projectedExceedsBudget])

theorem consumeSegments_none_length (putBlob : SegState → Except BuildErr (String × Int))
    (segs : List SegState) (acc : List (List Nat) × List Descriptor)
    (h : (consumeSegments putBlob segs acc).2 = none) :
    (consumeSegments putBlob segs acc).1.1.length = acc.1.length + segs.length := by
  induction segs generalizing acc with
  | nil => simp [consumeSegments]
  | cons seg rest ih =>
    simp only [consumeSegments] at h ⊢
    cases hb : putBlob seg with
    | error er =>
      rw [hb] at h
      simp at h
    | ok ds =>
      rw [hb] at h
      dsimp only at h ⊢
      have := ih _ h
      simp only [List.length_append, List.length_singleton] at this
      simp only [this, List.length_cons]
      omega

/-- Claim C6: the diff-id list and the layer-descriptor list of a task
always have equal length — every successful blob commit appends exactly
one descriptor and one diff id together, and an error returns before
either is appended — and on success their common length grows by
exactly one per committed segment, giving matching positional order. -/
theorem diffid_and_descriptor_lists_aligned (putBlob : SegState → Except BuildErr (String × Int))
    (segs : List SegState) (acc : List (List Nat) × List Descriptor)
    (h : acc.1.length = acc.2.length) :
    (consumeSegments putBlob segs acc).1.1.length =
      (consumeSegments putBlob segs acc).1.2.length
    ∧ ((consumeSegments putBlob segs acc).2 = none →
       (consumeSegments putBlob segs acc).1.1.length = acc.1.length + segs.length) := by
  refine ⟨?_, consumeSegments_none_length putBlob segs acc⟩
  induction segs generalizing acc with
  | nil => simpa [consumeSegments]
  | cons seg rest ih =>
    simp only [consumeSegments]
    cases hb : putBlob seg with
    | error er => simpa using h
    | ok ds =>
      exact ih _ (by simp [h])

theorem diffid_and_descriptor_lists_aligned_witness :
    ((consumeSegments (fun _ => Except.error (BuildErr.ioError "store failure"))
        [⟨[], [], true⟩] ([], [])).1.1.length =
      (consumeSegments (fun _ => Except.error (BuildErr.ioError "store failure"))
        [⟨[], [], true⟩] ([], [])).1.2.length)
    ∧ ((consumeSegments (fun _ => Except.error (BuildErr.ioError "store failure"))
        [⟨[], [], true⟩] ([], [])).2 = none →
       (consumeSegments (fun _ => Except.error (BuildErr.ioError "store failure"))
        [⟨[], [], true⟩] ([], [])).1.1.length =
         ([] : List (List Nat)).length + [(⟨[], [], true⟩ : SegState)].length) :=
  diffid_and_descriptor_lists_aligned (fun _ => Except.error (BuildErr.ioError "store failure"))
    [⟨[], [], true⟩] ([], []) rfl

/-- Claim C8: the walk handler checks the shared cancellation signal
before anything else; once the signal is observed the handler returns
the pool's dedicated cancellation sentinel — not a filesystem error —
for that entry and every subsequent one, and the walk aborts with the
producer state exactly as it was, so no further entry is archived. -/
theorem cancellation_stops_walk (m : Nat) (gz : List Nat → Nat) (cAt : Nat → Bool)
    (k : Nat) (s : ProdState) (entries : List Entry) :
    (∀ (s' : ProdState) (e : Entry),
      handlerStep m gz true s' e = Except.error ThreadPoolCancelled)
    ∧ (cAt k = true → entries ≠ [] →
        runWalk m gz cAt k s entries = (s, k + 1, some ThreadPoolCancelled)) := by
  constructor
  · intro s' e
    rfl
  · intro hc hne
    cases entries with
    | nil => exact absurd rfl hne
    | cons e rest =>
      simp [runWalk, handlerStep, hc]

theorem cancellation_stops_walk_witness :
    ((fun _ : Nat => true) 0 = true ∧ [sampleEntry] ≠ []) ∧
    runWalk 1 sampleGz (fun _ => true) 0 initProdState [sampleEntry] =
      (initProdState, 0 + 1, some ThreadPoolCancelled) :=
  ⟨⟨rfl, by simp⟩,
   (cancellation_stops_walk 1 sampleGz (fun _ => true) 0 initProdState [sampleEntry]).2
     rfl (by simp)⟩

/-- Claim C9: the grouping loop of doBuild computes i mod dirs-per-blob
with the caller-supplied value unguarded; with dirs-per-blob 0 and any
non-empty rootfs list the very first iteration performs a modulo by
zero, which in Go is a runtime panic — a GoPanic here, as distinct from
a returned error value. -/
theorem zero_dirs_per_blob_panics (rootfses : List String) (h : rootfses ≠ []) :
    groupRootfses rootfses 0 = Except.error GoPanic.integerDivideByZero := by
  cases rootfses with
  | nil => exact absurd rfl h
  | cons a rest => simp [groupRootfses, groupLoop, goIntMod]

theorem zero_dirs_per_blob_panics_witness :
    groupRootfses ["rootfs1"] 0 = Except.error GoPanic.integerDivideByZero :=
  zero_dirs_per_blob_panics ["rootfs1"] (by simp)

theorem handoffs_le_processEntry (m : Nat) (gz : List Nat → Nat) (s : ProdState) (e : Entry) :
    s.handoffs ≤ (processEntry m gz s e).handoffs := by
  rcases processEntry_cases m gz s e with he | he | he <;> rw [he]
  · exact Nat.le_refl _
  · exact Nat.le_refl _
  · exact Nat.le_succ _

theorem handoffs_le_handlerStep (m : Nat) (gz : List Nat → Nat) (c : Bool) (s : ProdState)
    (e : Entry) (s' : ProdState) (hok : handlerStep m gz c s e = Except.ok s') :
    s.handoffs ≤ s'.handoffs := by
  unfold handlerStep at hok
  split at hok
  · cases hok
  · split at hok
    · cases hok
      exact Nat.le_refl _
    · cases hok
      exact handoffs_le_processEntry m gz s e

theorem handoffs_le_runWalk (m : Nat) (gz : List Nat → Nat) (cAt : Nat → Bool) (k : Nat)
    (s : ProdState) (es : List Entry) : s.handoffs ≤ (runWalk m gz cAt k s es).1.handoffs := by
  induction es generalizing k s with
  | nil => exact Nat.le_refl _
  | cons e rest ih =>
    simp only [runWalk]
    cases hh : handlerStep m gz (cAt k) s e with
    | error er => exact Nat.le_refl _
    | ok s' => exact Nat.le_trans (handoffs_le_handlerStep m gz (cAt k) s e s' hh) (ih (k + 1) s')

theorem handoffs_le_walkRootfses (m : Nat) (gz : List Nat → Nat) (cAt : Nat → Bool) (k : Nat)
    (s : ProdState) (rs : List (List Entry)) :
    s.handoffs ≤ (walkRootfses m gz cAt k s rs).1.handoffs := by
  induction rs generalizing k s with
  | nil => exact Nat.le_refl _
  | cons r rest ih =>
    simp only [walkRootfses]
    exact Nat.le_trans (handoffs_le_runWalk m gz cAt k s r) (ih _ _)

theorem runWalk_all_roots (m : Nat) (gz : List Nat → Nat) (k : Nat) (s : ProdState)
    (es : List Entry) (h : ∀ e ∈ es, e.isRoot = true) :
    runWalk m gz (fun _ => false) k s es = (s, k + es.length, none) := by
  induction es generalizing k with
  | nil => simp [runWalk]
  | cons e rest ih =>
    have he : e.isRoot = true := h e (List.mem_cons_self e rest)
    have hrest : ∀ e' ∈ rest, e'.isRoot = true := fun e' hm => h e' (List.mem_cons_of_mem e hm)
    have step : runWalk m gz (fun _ => false) k s (e :: rest) =
        runWalk m gz (fun _ => false) (k + 1) s rest := by
      simp [runWalk, handlerStep, he]
    have hk : k + 1 + rest.length = k + (e :: rest).length := by
      simp only [List.length_cons]
      omega
    rw [step, ih (k + 1) hrest, hk]

theorem walkRootfses_all_roots (m : Nat) (gz : List Nat → Nat) (k : Nat) (s : ProdState)
    (rs : List (List Entry)) (h : ∀ r ∈ rs, ∀ e ∈ r, e.isRoot = true) :
    walkRootfses m gz (fun _ => false) k s rs = (s, k + (rs.map List.length).sum, none) := by
  induction rs generalizing k with
  | nil => simp [walkRootfses]
  | cons r rest ih =>
    have hr : ∀ e ∈ r, e.isRoot = true := h r (List.mem_cons_self r rest)
    have hrest : ∀ r' ∈ rest, ∀ e ∈ r', e.isRoot = true :=
      fun r' hm => h r' (List.mem_cons_of_mem r hm)
    simp only [walkRootfses]
    rw [runWalk_all_roots m gz k s r hr]
    dsimp only
    rw [ih (k + r.length) hrest]
    simp only [List.map_cons, List.sum_cons]
    rw [Nat.add_assoc]

/-- Claim C10: the first segment handle is sent on the channel before
any filesystem entry is walked, so every task produces at least one
layer; a task whose rootfses contain no archivable entries still yields
exactly one segment and — on a successful commit — exactly one layer
whose diff id is the digest of the empty tar archive (the 1024-byte
end-of-archive marker alone). -/
theorem every_task_produces_a_layer (m : Nat) (gz : List Nat → Nat)
    (putBlob : SegState → Except BuildErr (String × Int))
    (rootfses : List (List Entry))
    (hroot : ∀ r ∈ rootfses, ∀ e ∈ r, e.isRoot = true)
    (dg : String) (sz : Int)
    (hput : putBlob ⟨tarTerminator, tarTerminator, true⟩ = Except.ok (dg, sz)) :
    runProducer m gz (fun _ => false) rootfses =
      ([⟨tarTerminator, tarTerminator, true⟩], 1, none)
    ∧ addBlob m gz (fun _ => false) putBlob rootfses =
        (([tarTerminator], [⟨MediaTypeImageLayerGzip, dg, sz⟩]), none)
    ∧ (∀ (cAt : Nat → Bool) (rfs : List (List Entry)),
        1 ≤ (runProducer m gz cAt rfs).2.1 ∧ 1 ≤ (runProducer m gz cAt rfs).1.length)
    ∧ (∀ (cAt : Nat → Bool) (rfs : List (List Entry))
         (pb : SegState → Except BuildErr (String × Int))
         (res : List (List Nat) × List Descriptor),
        addBlob m gz cAt pb rfs = (res, none) → 1 ≤ res.1.length) := by
  have hprod : runProducer m gz (fun _ => false) rootfses =
      ([⟨tarTerminator, tarTerminator, true⟩], 1, none) := by
    unfold runProducer
    rw [walkRootfses_all_roots m gz 0 initProdState rootfses hroot]
    simp [initProdState, writeTar]
  refine ⟨hprod, ?_, ?_, ?_⟩
  · unfold addBlob
    rw [hprod]
    simp [consumeSegments, hput]
  · intro cAt rfs
    constructor
    · have h1 : initProdState.handoffs ≤ (walkRootfses m gz cAt 0 initProdState rfs).1.handoffs :=
        handoffs_le_walkRootfses m gz cAt 0 initProdState rfs
      simp only [runProducer, writeTar_handoffs]
      simpa [initProdState] using h1
    · simp [runProducer]
  · intro cAt rfs pb res hres
    unfold addBlob at hres
    have h2 : (consumeSegments pb (runProducer m gz cAt rfs).1 ([], [])).2 = none := by
      rw [hres]
    have h3 := consumeSegments_none_length pb (runProducer m gz cAt rfs).1 ([], []) h2
    rw [hres] at h3
    simp only [runProducer] at h3 ⊢
    simp at h3
    omega

theorem every_task_produces_a_layer_witness :
    runProducer 1 sampleGz (fun _ => false) [] =
      ([⟨tarTerminator, tarTerminator, true⟩], 1, none)
    ∧ addBlob 1 sampleGz (fun _ => false) (fun _ => Except.ok ("sha256-digest", 7)) [] =
        (([tarTerminator], [⟨MediaTypeImageLayerGzip, "sha256-digest", 7⟩]), none)
    ∧ (∀ (cAt : Nat → Bool) (rfs : List (List Entry)),
        1 ≤ (runProducer 1 sampleGz cAt rfs).2.1 ∧ 1 ≤ (runProducer 1 sampleGz cAt rfs).1.length)
    ∧ (∀ (cAt : Nat → Bool) (rfs : List (List Entry))
         (pb : SegState → Except BuildErr (String × Int))
         (res : List (List Nat) × List Descriptor),
        addBlob 1 sampleGz cAt pb rfs = (res, none) → 1 ≤ res.1.length) :=
  every_task_produces_a_layer 1 sampleGz (fun _ => Except.ok ("sha256-digest", 7)) []
    (by simp) "sha256-digest" 7 rfl

theorem foldl_set_length {β : Type} (f : Nat → β) (order : List Nat) (init : List β) :
    (order.foldl (fun slots i => slots.set i (f i)) init).length = init.length := by
  induction order generalizing init with
  | nil => rfl
  | cons i rest ih =>
    rw [List.foldl_cons, ih, List.length_set]

theorem foldl_set_getElem? {β : Type} (f : Nat → β) (order : List Nat) (init : List β)
    (j : Nat) :
    (order.foldl (fun slots i => slots.set i (f i)) init)[j]? =
      if j ∈ order ∧ j < init.length then some (f j) else init[j]? := by
  induction order generalizing init with
  | nil => simp
  | cons i rest ih =>
    rw [List.foldl_cons, ih, List.length_set]
    by_cases hj : j ∈ rest ∧ j < init.length
    · rw [if_pos hj, if_pos ⟨List.mem_cons_of_mem i hj.1, hj.2⟩]
    · rw [if_neg hj, List.getElem?_set]
      by_cases hij : i = j
      · subst hij
        by_cases hlt : i < init.length
        · rw [if_pos rfl, if_pos hlt, if_pos ⟨List.mem_cons_self i rest, hlt⟩]
        · rw [if_pos rfl, if_neg hlt, if_neg (fun hh => hlt hh.2)]
          exact (List.getElem?_eq_none (Nat.le_of_not_lt hlt)).symm
      · rw [if_neg hij]
        by_cases hmem : j ∈ i :: rest
        · rcases List.mem_cons.mp hmem with heq | hr
          · exact absurd heq.symm hij
          · have : ¬ j < init.length := fun hlt => hj ⟨hr, hlt⟩
            rw [if_neg (fun hh => this hh.2)]
        · rw [if_neg (fun hh => hmem hh.1)]

theorem poolRunInOrder_eq {α : Type} (run : α → TaskResult) (tasks : List α)
    (order : List Nat)
    (hcover : ∀ i, i < tasks.length → i ∈ order)
    (hbound : ∀ i ∈ order, i < tasks.length) :
    poolRunInOrder run tasks order = (tasks.map run).map some := by
  apply List.ext_getElem?
  intro j
  unfold poolRunInOrder
  rw [foldl_set_getElem? (fun i => tasks[i]?.map run), List.length_replicate]
  rw [List.getElem?_map, List.getElem?_map]
  by_cases hj : j < tasks.length
  · rw [if_pos ⟨hcover j hj, hj⟩]
    rw [List.getElem?_eq_getElem hj]
    rfl
  · have hmem : j ∉ order := fun hm => hj (hbound j hm)
    rw [if_neg (fun hh => hmem hh.1), List.getElem?_replicate, if_neg hj]
    rw [List.getElem?_eq_none (Nat.le_of_not_lt hj)]
    rfl

/-- Claim C5: after all tasks succeed, the image config's diff-id list
and the manifest's layer list are extended by each task's results in
the order the tasks were created from the grouped rootfs list — for any
completion order of the pool's workers that runs every task, the
assembled sequences equal the creation-order concatenation. -/
theorem assembly_order_independent_of_completion {α : Type} (run : α → TaskResult)
    (tasks : List α) (order : List Nat)
    (diffIDs0 : List (List Nat)) (layers0 : List Descriptor)
    (hcover : ∀ i, i < tasks.length → i ∈ order)
    (hbound : ∀ i ∈ order, i < tasks.length) :
    assembleResults diffIDs0 layers0 (slotResults (poolRunInOrder run tasks order)) =
      assembleResults diffIDs0 layers0 (tasks.map run) := by
  rw [poolRunInOrder_eq run tasks order hcover hbound]
  unfold slotResults
  rw [List.map_map]
  have hcomp : ((fun o : Option TaskResult => o.getD default) ∘ some) = id := rfl
  rw [hcomp, List.map_id]

theorem assembly_order_independent_of_completion_witness :
    assembleResults [[0]] []
        (slotResults (poolRunInOrder
          (fun n : Nat => { diffID := [[n]], layerDesc := [] }) [3, 7] [1, 0])) =
      assembleResults [[0]] []
        ([3, 7].map (fun n : Nat => { diffID := [[n]], layerDesc := [] })) :=
  assembly_order_independent_of_completion
    (fun n : Nat => { diffID := [[n]], layerDesc := [] }) [3, 7] [1, 0] [[0]] []
    (by decide) (by decide)

/-- Claim C7: if the pool's Run returns an error, doBuild returns that
same error at once: the operation trace contains no reference
resolution, no manifest or config read, no blob-JSON write and no
reference update — only the deferred Close and GC run, leaving the
blobs already written to garbage collection. -/
theorem pool_error_skips_assembly (er : BuildErr)
    (resolveRes : Except BuildErr (List Descriptor))
    (fromDesc : Descriptor → Except BuildErr BlobData)
    (putJSON : BlobData → Except BuildErr (String × Int))
    (updateRef : Descriptor → Option BuildErr)
    (tasks : List TaskResult) :
    doBuildTail (some er) resolveRes fromDesc putJSON updateRef tasks =
      (some er, [OciOp.close, OciOp.gc])
    ∧ OciOp.resolveReference ∉
        (doBuildTail (some er) resolveRes fromDesc putJSON updateRef tasks).2
    ∧ OciOp.fromDescriptor ∉
        (doBuildTail (some er) resolveRes fromDesc putJSON updateRef tasks).2
    ∧ OciOp.putBlobJSON ∉
        (doBuildTail (some er) resolveRes fromDesc putJSON updateRef tasks).2
    ∧ OciOp.updateReference ∉
        (doBuildTail (some er) resolveRes fromDesc putJSON updateRef tasks).2
    ∧ OciOp.gc ∈ (doBuildTail (some er) resolveRes fromDesc putJSON updateRef tasks).2 := by
  refine ⟨rfl, ?_, ?_, ?_, ?_, ?_⟩ <;> simp [doBuildTail, doBuildTailCore]

end Octoci
